import Mathlib

/-!
Verification of the go-ts3 TeamSpeak 3 ServerQuery client library.

This file gives a shallow embedding, in Lean 4, of the parts of the
repository needed to settle the frozen claims: the escape codec
(`strings.NewReplacer` tables in helpers.go), the response decoder
(`DecodeResponse`, `decodeMap`, `decodeSlice`, `timeHookFunc`), the
notification decoder (`decodeNotification`), and the command dispatcher
(`Client.messageHandler`, `Client.ExecCmd`, `Client.Close`).

Strings are modelled at the level of `List Char`; every protocol special
character is ASCII, so char-level modelling coincides with Go's byte-level
handling on the inputs of interest.  All definitions are structural
(fuel-based where the Go code loops), hence executable and kernel-reducible.
-/

namespace TS3

/-! ## Errors

The repository's error values (`errors.go` is not part of the provided
sources, but only the identity of each error matters to the claims). -/

/-- Error values returned by the library.  `errTimeout` and
`errNotConnected` mirror `ErrTimeout` and `ErrNotConnected`;
`invalidResponse` mirrors `NewInvalidResponseError`; `protocolErr` mirrors
`NewError` applied to the trailer regexp groups; `decodeServerGroups`
mirrors the wrapped `decode server group` error; `invalidTime` mirrors the
`invalid time` error from `timeHookFunc`; `decodeMapErr` mirrors an error
surfaced by the mapstructure decode. -/
inductive GoError where
  | errTimeout : GoError
  | errNotConnected : GoError
  | invalidResponse (reason : String) (lines : List String) : GoError
  | protocolErr (id msg extra : String) : GoError
  | decodeServerGroups : GoError
  | invalidTime (v : String) : GoError
  | decodeMapErr (msg : String) : GoError
  deriving Repr, DecidableEq

/-- Result of running a piece of Go code that may also panic at runtime
(index out of range, close of closed channel, ...). -/
inductive GoResult (α : Type) where
  | ok (a : α) : GoResult α
  | err (e : GoError) : GoResult α
  | panic (msg : String) : GoResult α
  deriving Repr, DecidableEq

/-! ## Line codec (helpers.go: `encoder`, `decoder`, `Decode`)

`strings.NewReplacer` replaces, scanning the input left to right, the
first pattern (in argument order) matching at the current position, and
never rescans replaced text.  `replFuel` models exactly that; the fuel is
the input length, which suffices because every step consumes at least one
input character (all patterns of the repository's tables are nonempty). -/

/-- The `encoder` replacement table from helpers.go, in argument order. -/
def encPairs : List (List Char × List Char) :=
  [(['\\'], ['\\', '\\']),
   (['/'],  ['\\', '/']),
   ([' '],  ['\\', 's']),
   (['|'],  ['\\', 'p']),
   (['\x07'], ['\\', 'a']),
   (['\x08'], ['\\', 'b']),
   (['\x0c'], ['\\', 'f']),
   (['\n'], ['\\', 'n']),
   (['\r'], ['\\', 'r']),
   (['\t'], ['\\', 't']),
   (['\x0b'], ['\\', 'v'])]

/-- The `decoder` replacement table from helpers.go, in argument order. -/
def decPairs : List (List Char × List Char) :=
  [(['\\', '\\'], ['\\']),
   (['\\', '/'],  ['/']),
   (['\\', 's'],  [' ']),
   (['\\', 'p'],  ['|']),
   (['\\', 'a'],  ['\x07']),
   (['\\', 'b'],  ['\x08']),
   (['\\', 'f'],  ['\x0c']),
   (['\\', 'n'],  ['\n']),
   (['\\', 'r'],  ['\r']),
   (['\\', 't'],  ['\t']),
   (['\\', 'v'],  ['\x0b'])]

/-- First pair of the table whose pattern matches at the head of `s`
(argument order, as `strings.Replacer` does). -/
def findRepl (pairs : List (List Char × List Char)) (s : List Char) :
    Option (List Char × List Char) :=
  pairs.find? (fun pr => pr.1.isPrefixOf s)

/-- Fuel-driven left-to-right non-overlapping replacement
(`strings.Replacer.Replace`). -/
def replFuel (pairs : List (List Char × List Char)) :
    Nat → List Char → List Char
  | 0, s => s
  | _ + 1, [] => []
  | f + 1, c :: cs =>
    match findRepl pairs (c :: cs) with
    | some (p, r) => r ++ replFuel pairs f (List.drop (p.length - 1) cs)
    | none => c :: replFuel pairs f cs

/-- `strings.Replacer.Replace` on a char list: fuel set to the length. -/
def goRepl (pairs : List (List Char × List Char)) (s : List Char) : List Char :=
  replFuel pairs s.length s

/-- `encoder.Replace`: the ServerQuery escape encoding. -/
def encodeStr (s : String) : String := ⟨goRepl encPairs s.data⟩

/-- `Decode` (helpers.go): the ServerQuery escape decoding. -/
def decodeStr (s : String) : String := ⟨goRepl decPairs s.data⟩

/-- The escapable character set of the codec. -/
def specialChar (c : Char) : Bool :=
  c ∈ ['\\', '/', ' ', '|', '\x07', '\x08', '\x0c', '\n', '\r', '\t', '\x0b']

/-- The escape letter of a special character (second character of its
two-character escape sequence), read off the `encoder` table. -/
def encTable (c : Char) : Option Char :=
  if c = '\\' then some '\\'
  else if c = '/' then some '/'
  else if c = ' ' then some 's'
  else if c = '|' then some 'p'
  else if c = '\x07' then some 'a'
  else if c = '\x08' then some 'b'
  else if c = '\x0c' then some 'f'
  else if c = '\n' then some 'n'
  else if c = '\r' then some 'r'
  else if c = '\t' then some 't'
  else if c = '\x0b' then some 'v'
  else none

/-- The character encoded by an escape letter, read off the `decoder`
table. -/
def decTable (e : Char) : Option Char :=
  if e = '\\' then some '\\'
  else if e = '/' then some '/'
  else if e = 's' then some ' '
  else if e = 'p' then some '|'
  else if e = 'a' then some '\x07'
  else if e = 'b' then some '\x08'
  else if e = 'f' then some '\x0c'
  else if e = 'n' then some '\n'
  else if e = 'r' then some '\r'
  else if e = 't' then some '\t'
  else if e = 'v' then some '\x0b'
  else none

/-- What the encoder emits for one input character. -/
def encChar (c : Char) : List Char :=
  match encTable c with
  | some e => ['\\', e]
  | none => [c]

/-! ## String splitting (Go `strings.Split` / `strings.SplitN`)

All separators used by the decoder are single ASCII characters, so the
general Go functions are modelled for a `Char` separator. -/

/-- `strings.Split(s, sep)` for a one-character separator: every maximal
run between separators, including empty runs at the ends. -/
def splitOnChar (sep : Char) : List Char → List (List Char)
  | [] => [[]]
  | c :: cs =>
    match splitOnChar sep cs with
    | [] => [[]]
    | t :: ts => if c = sep then [] :: t :: ts else (c :: t) :: ts

/-- Location of the first occurrence of `sep`: the characters before it
and the characters after it, or `none` when absent. -/
def splitFirst (sep : Char) : List Char → Option (List Char × List Char)
  | [] => none
  | c :: cs =>
    if c = sep then some ([], cs)
    else (splitFirst sep cs).map (fun p => (c :: p.1, p.2))

/-- `strings.Split(s, sep)` at `String` level. -/
def goSplit (s : String) (sep : Char) : List String :=
  (splitOnChar sep s.data).map (fun l => ⟨l⟩)

/-- `strings.SplitN(s, sep, 2)`: split at the first occurrence only. -/
def goSplitN2 (s : String) (sep : Char) : List String :=
  match splitFirst sep s.data with
  | none => [s]
  | some (a, b) => [⟨a⟩, ⟨b⟩]

/-! ## Numeric parsing (`strconv.Atoi` / `strconv.ParseInt(s, 10, 64)`) -/

/-- Digits of `s` read as a natural number (`s` must be all digits). -/
def digitsToNat : List Char → Nat → Nat
  | [], acc => acc
  | c :: cs, acc => digitsToNat cs (acc * 10 + (c.toNat - 48))

/-- `strconv.Atoi`: optional sign, one or more decimal digits, nothing
else, and the result must fit a 64-bit `int`; otherwise the error branch
is taken (modelled as `none`). -/
def atoi (s : String) : Option Int :=
  let core : List Char → Option Int := fun ds =>
    if ds = [] then none
    else if ds.all (fun c => c.isDigit) then some (digitsToNat ds 0) else none
  let signed : Option Int :=
    match s.data with
    | '+' :: ds => core ds
    | '-' :: ds => (core ds).map (fun n => -n)
    | ds => core ds
  match signed with
  | none => none
  | some n => if -(2 ^ 63) ≤ n ∧ n ≤ 2 ^ 63 - 1 then some n else none

/-! ## Response decoder (helpers.go: `DecodeResponse`) -/

/-- A value stored in the generic `map[string]interface{}` built by
`DecodeResponse`: a decoded string, an `Atoi`-coerced integer, the
`client_servergroups` integer list, or a `time.Time` produced by
`timeHookFunc` (only ever created by the hook). -/
inductive GoValue where
  | int (n : Int) : GoValue
  | str (s : String) : GoValue
  | intList (l : List Int) : GoValue
  | time (sec : Int) : GoValue
  deriving Repr, DecidableEq

/-- The generic input map, in first-insertion order (Go maps are
unordered; the decoders below consume the map only through lookups). -/
abbrev InputMap := List (String × GoValue)

/-- `input[key] = v`: overwrite an existing binding, else append. -/
def mapSet : InputMap → String → GoValue → InputMap
  | [], k, v => [(k, v)]
  | (k2, v2) :: rest, k, v =>
    if k2 = k then (k, v) :: rest else (k2, v2) :: mapSet rest k v

/-- `input[key]` lookup. -/
def lookupMap : InputMap → String → Option GoValue
  | [], _ => none
  | (k2, v2) :: rest, k => if k2 = k then some v2 else lookupMap rest k

/-- One iteration of the inner field loop of `DecodeResponse`
(helpers.go lines 72–100): split the field on the first `=`, `Decode`
key and value, coerce the value with `Atoi`, special-case
`client_servergroups` as a comma-separated integer list, and store a
bare token as the empty string. -/
def parseField (input : InputMap) (val : String) : Except GoError InputMap :=
  match goSplitN2 val '=' with
  | [k] => .ok (mapSet input (decodeStr k) (.str ""))
  | k :: v :: _ =>
    let key := decodeStr k
    let v := decodeStr v
    match atoi v with
    | some i => .ok (mapSet input key (.int i))
    | none =>
      if key = "client_servergroups" then
        match (splitOnChar ',' v.data).mapM (fun g => atoi ⟨g⟩) with
        | some gs => .ok (mapSet input key (.intList gs))
        | none => .error .decodeServerGroups
      else .ok (mapSet input key (.str v))
  | [] => .ok input

/-- The inner field loop of `DecodeResponse` over one pipe-delimited
record: `for _, val := range strings.Split(part, " ")`. -/
def buildFields (input : InputMap) (part : String) : Except GoError InputMap :=
  (goSplit part ' ').foldlM parseField input

/-- `DecodeResponse` specialised to a singular (non-slice) target.  The
structural decode performed by the external mapstructure library
(`decodeMap`) is the parameter `d`.  Note the input map is carried across
pipe-delimited records and decoded once at the end. -/
def decodeResponseSingle {α : Type} (d : InputMap → Except GoError α)
    (lines : List String) : Except GoError α :=
  if lines.length > 1 then .error (.invalidResponse "too many lines" lines)
  else
    match lines with
    | [] => .error (.invalidResponse "no lines" lines)
    | l :: _ => do
      let input ← (goSplit l '|').foldlM buildFields []
      d input

/-- One iteration of the record loop of `DecodeResponse` in slice mode:
parse the record's fields into the running input map, let `decodeSlice`
append one element decoded from that map (via `d`, the mapstructure
decode of one element) to the target slice, then reset the input map. -/
def sliceStep {α : Type} (d : InputMap → Except GoError α)
    (acc : InputMap × List α) (part : String) :
    Except GoError (InputMap × List α) :=
  match acc with
  | (input0, accL) =>
    match buildFields input0 part with
    | .error e => .error e
    | .ok input =>
      match d input with
      | .error e => .error e
      | .ok x => .ok (([] : InputMap), accL ++ [x])

/-- `DecodeResponse` specialised to a slice target: one `sliceStep` per
pipe-delimited record, appending to the caller's slice `init`. -/
def decodeResponseSliceGo {α : Type} (d : InputMap → Except GoError α)
    (init : List α) (lines : List String) : Except GoError (List α) :=
  if lines.length > 1 then .error (.invalidResponse "too many lines" lines)
  else
    match lines with
    | [] => .error (.invalidResponse "no lines" lines)
    | l :: _ =>
      match (goSplit l '|').foldlM (sliceStep d) (([] : InputMap), init) with
      | .error e => .error e
      | .ok r => .ok r.2

/-! ## Time decoding (helpers.go: `timeHookFunc`) and the mapstructure
field assignment it feeds. -/

/-- `timeHookFunc` (helpers.go lines 214–236): when the target type is
`time.Time`, read an int or numeric string as epoch seconds; a
non-numeric string errors (`invalid time`); a positive epoch converts to
`time.Unix(timeInt, 0)`; otherwise the data is returned unchanged. -/
def timeHookFunc (toIsTime : Bool) (data : GoValue) : Except GoError GoValue :=
  if toIsTime then
    let tiE : Except GoError Int :=
      match data with
      | .int n => .ok n
      | .str s =>
        match atoi s with
        | some n => .ok n
        | none => .error (.invalidTime s)
      | _ => .ok 0
    match tiE with
    | .error e => .error e
    | .ok timeInt => if timeInt > 0 then .ok (.time timeInt) else .ok data
  else .ok data

/-- Model of the external mapstructure library assigning a hooked value
to a `time.Time`-typed struct field (mapstructure `decodeStruct`): a
value already of the field's own struct type is set directly; any other
non-map value is a decode error (`expected a map, got ...`) —
`WeaklyTypedInput` has no weak conversion into struct targets.  The
result is the field's content as epoch seconds, `none` for the zero
`time.Time`. -/
def msAssignTime (v : GoValue) : Except GoError (Option Int) := do
  let h ← timeHookFunc true v
  match h with
  | .time t => .ok (some t)
  | .int _ => .error (.decodeMapErr "expected a map, got int")
  | .str _ => .error (.decodeMapErr "expected a map, got string")
  | .intList _ => .error (.decodeMapErr "expected a map, got slice")

/-- mapstructure decode (`decodeMap`) of the generic input map into a
struct with a single `time.Time` field tagged `ms:"client_created"`
(as in `DBClient`): an absent key leaves the field zero-valued. -/
def dTimeField (m : InputMap) : Except GoError (Option Int) :=
  match lookupMap m "client_created" with
  | none => .ok none
  | some v => msAssignTime v

/-! ## Notifications (notify.go: `Notification`, `decodeNotification`) -/

/-- `Notification` (notify.go): event type with the `notify` stripped,
and the decoded data map (modelled in insertion order). -/
structure Notification where
  type : String
  data : List (String × String)
  deriving Repr, DecidableEq

/-- mapstructure's weakly-typed decode of one generic value into a
`string` (for the `map[string]string` notification target): integers are
formatted in decimal, strings pass through (behaviour pinned by
`TestDecodeNotification`, where `targetmode=3` decodes to `"3"`). -/
def weakToString : GoValue → Except GoError String
  | .int n => .ok (toString n)
  | .str s => .ok s
  | .intList _ => .error (.decodeMapErr "cannot decode slice to string")
  | .time _ => .error (.decodeMapErr "cannot decode time to string")

/-- mapstructure decode (`decodeMap`) of the generic input map into a
`map[string]string` target, as used by `decodeNotification`. -/
def weakStringMap (m : InputMap) : Except GoError (List (String × String)) :=
  m.mapM (fun kv => do
    let s ← weakToString kv.2
    pure (kv.1, s))

/-- `strings.TrimPrefix(s, "notify")`. -/
def trimNotify (s : String) : String :=
  if ("notify".data).isPrefixOf s.data then ⟨s.data.drop 6⟩ else s

/-- `decodeNotification` (notify.go lines 87–96): split on the first
space, strip the `notify` from the first token, and `DecodeResponse`
the remainder into the data map.  `parts[1]` is accessed
unconditionally, so a line without a space panics (index out of range). -/
def decodeNotificationGo (str : String) : GoResult Notification :=
  match goSplitN2 str ' ' with
  | [_] => .panic "runtime error: index out of range [1] with length 1"
  | p0 :: p1 :: _ =>
    let ty := trimNotify p0
    match decodeResponseSingle weakStringMap [p1] with
    | .ok data => .ok ⟨ty, data⟩
    | .error e => .err e
  | [] => .panic "unreachable: SplitN never returns an empty slice"

/-! ## Command dispatcher (client.go: `messageHandler`, `ExecCmd`,
`Close`)

The dispatcher state is modelled explicitly: the message handler's
partial-response buffer `buf`, the responses it has emitted on the
unbuffered `c.response` channel that no `ExecCmd` caller has yet received
(`pending`, in emission order — one sender emitting sequentially makes
the channel FIFO), the notification channel content and capacity, and the
`closing` / `done` channel-closed flags. -/

/-- `type response struct` (client.go lines 60–63). -/
structure GoResponse where
  err : Option GoError
  lines : List String
  deriving Repr, DecidableEq

/-- The message handler's observable state. -/
structure HandlerState where
  buf : List String
  pending : List GoResponse
  notifyQ : List Notification
  notifyCap : Nat
  closing : Bool
  done : Bool
  deriving Repr, DecidableEq

/-- The trailer regexp `^error id=(\d+) msg=([^ ]+)(.*)`: literal
`error id=`, one or more digits, literal ` msg=`, one or more non-space
characters, then the rest of the line.  Greedy matching coincides with
maximal munch here since a digit run cannot be followed by a space after
shortening, and `(.*)` accepts anything. -/
def matchErrTrailer (l : String) : Option (String × String × String) :=
  if ("error id=".data).isPrefixOf l.data then
    let rest := l.data.drop 9
    let digits := rest.takeWhile (fun c => c.isDigit)
    if digits = [] then none
    else
      let rest2 := rest.drop digits.length
      if (" msg=".data).isPrefixOf rest2 then
        let rest3 := rest2.drop 5
        let msg := rest3.takeWhile (fun c => c ≠ ' ')
        if msg = [] then none
        else some (⟨digits⟩, ⟨msg⟩, ⟨rest3.drop msg.length⟩)
      else none
  else none

/-- One iteration of `messageHandler` (client.go lines 252–280) on a
scanned line: the success trailer emits the buffered lines as a response
and resets the buffer; an error trailer emits a protocol error and resets
the buffer; a `notify`-prefixed line is decoded and sent to the
notification channel non-blockingly (dropped when the channel is full,
and a decode panic crashes the handler); anything else is appended to the
partial-response buffer. -/
def handlerLine (s : HandlerState) (line : String) : GoResult HandlerState :=
  if line = "error id=0 msg=ok" then
    .ok { s with pending := s.pending ++ [⟨none, s.buf⟩], buf := [] }
  else
    match matchErrTrailer line with
    | some (id, msg, extra) =>
      .ok { s with pending := s.pending ++ [⟨some (.protocolErr id msg extra), []⟩],
                   buf := [] }
    | none =>
      if ("notify".data).isPrefixOf line.data then
        match decodeNotificationGo line with
        | .ok n =>
          .ok (if s.notifyQ.length < s.notifyCap
               then { s with notifyQ := s.notifyQ ++ [n] } else s)
        | .err _ => .ok s
        | .panic m => .panic m
      else .ok { s with buf := s.buf ++ [line] }

/-- The whole client: handler state plus whether the `workHandler`
goroutine is still running (it exits once `done` is closed). -/
structure Sys where
  h : HandlerState
  workAlive : Bool
  deriving Repr, DecidableEq

/-- `ExecCmd` (client.go lines 350–374).  The opening select sends the
command to the work handler unless `done` is closed; after `Close` the
work handler has exited, so only the `done` case is ready and the call
returns `ErrNotConnected` immediately.  The second select receives the
oldest unconsumed response from the handler, if there is one; when no
response arrives within the configured timeout the call returns
`ErrTimeout`, consuming nothing and leaving all state untouched. -/
def execCmdGo (s : Sys) (_cmd : String) : Sys × Except GoError (List String) :=
  if s.h.done && !s.workAlive then (s, .error .errNotConnected)
  else
    match s.h.pending with
    | [] => (s, .error .errTimeout)
    | r :: rest =>
      ({ s with h := { s.h with pending := rest } },
       match r.err with
       | some e => .error e
       | none => .ok r.lines)

/-- Go's `close` on a channel: closing an already-closed channel panics. -/
def closeChan (alreadyClosed : Bool) : GoResult Bool :=
  if alreadyClosed then .panic "close of closed channel" else .ok true

/-- `Close` (client.go lines 388–403).  The very first statement is
`close(c.closing)`, which panics when `closing` is already closed.
Otherwise the quit command is sent and answered, the connection is
closed, the message handler's scan fails, `scanErr` observes `closing`
and returns nil, `closeDone` closes `done`, both loops exit and
`wg.Wait()` returns: afterwards `done` is closed, no handler goroutine
remains, and no response is left pending. -/
def closeClientGo (s : Sys) : GoResult Sys :=
  match closeChan s.h.closing with
  | .panic m => .panic m
  | _ =>
    .ok { h := { s.h with closing := true, done := true, pending := [] },
          workAlive := false }

/-! ## Concrete states and lines used by several claims -/

/-- A freshly connected client in steady state: empty buffer, no pending
response, default notification capacity, both loops running. -/
def openSys : Sys := ⟨⟨[], [], [], 5, false, false⟩, true⟩

/-- The notification line of the textmessage scenario. -/
def notifLine : String := "notifytextmessage targetmode=3 msg=lorem\\sipsum flag"

/-- The decoded textmessage notification. -/
def textMsgNotif : Notification :=
  ⟨"textmessage", [("targetmode", "3"), ("msg", "lorem ipsum"), ("flag", "")]⟩

/-- Handler state after scanning the data line of the timed-out command. -/
def hAfterData : HandlerState := ⟨["respA=1"], [], [], 5, false, false⟩

/-- Handler state after scanning the success trailer of the timed-out
command: its response sits unconsumed on the response channel. -/
def hAfterTrailer : HandlerState := ⟨[], [⟨none, ["respA=1"]⟩], [], 5, false, false⟩

/-! ## C1 — late responses are NOT discarded -/

/-- C1: the claim fails on the code.  Concrete interleaving: command A's
`ExecCmd` times out (returning `ErrTimeout` and leaving every piece of
client state untouched — that much of the claim holds); A's data line and
success trailer then arrive and the still-running read loop emits A's
response on the response channel; the next caller B's `ExecCmd` receives
that emission, so B's result derives from A's trailer, not B's own.
`ExecCmd` has no discard path for a response belonging to a timed-out
command (client.go lines 357–365 consume `c.response` unconditionally). -/
theorem late_response_delivered_to_next_caller :
    execCmdGo openSys "cmdA" = (openSys, .error .errTimeout)
    ∧ handlerLine openSys.h "respA=1" = .ok hAfterData
    ∧ handlerLine hAfterData "error id=0 msg=ok" = .ok hAfterTrailer
    ∧ execCmdGo ⟨hAfterTrailer, true⟩ "cmdB" =
        (⟨⟨[], [], [], 5, false, false⟩, true⟩, .ok ["respA=1"]) := by
  refine ⟨rfl, ?_, rfl, rfl⟩
  rfl

/-! ## C2 — a singular target with several records does not error -/

/-- Folding the field loop over every record in sequence is the same as
folding over the concatenation of all records' fields. -/
theorem foldlM_buildFields (parts : List String) (m : InputMap) :
    parts.foldlM buildFields m =
      (parts.flatMap (fun p => goSplit p ' ')).foldlM parseField m := by
  induction parts generalizing m with
  | nil => rfl
  | cons p ps ih =>
    simp only [List.foldlM_cons, List.flatMap_cons, List.foldlM_append, buildFields]
    cases hb : (goSplit p ' ').foldlM parseField m with
    | error e => rfl
    | ok m2 => exact ih m2

/-- C2 counterexample: one line holding two pipe-separated records,
decoded with a singular target (the element decode is the identity),
succeeds — the records are merged with the later `a` overwriting the
earlier one — instead of returning an error as the claim requires. -/
theorem singular_two_records_no_error :
    decodeResponseSingle Except.ok ["a=1|a=2"] = .ok [("a", GoValue.int 2)] := by
  rfl

/-- C2 amended: with a singular target, `DecodeResponse` decodes the
key/value pairs of ALL pipe-separated records of the line, merged into a
single map in field order (so one record fills the target from exactly its
own pairs, and two or more records never produce a too-many-records
error — later records simply overwrite duplicate keys). -/
theorem decodeResponseSingle_merges_records {α : Type}
    (d : InputMap → Except GoError α) (l : String) :
    decodeResponseSingle d [l] =
      (((goSplit l '|').flatMap (fun p => goSplit p ' ')).foldlM parseField []) >>= d := by
  unfold decodeResponseSingle
  norm_num
  rw [foldlM_buildFields]

/-! ## C4 — Close is not idempotent: the second call panics -/

/-- C4: the claim fails on the code.  `Close` begins with
`close(c.closing)` (client.go line 392) with no guard; a second `Close`
therefore closes an already-closed channel, which panics in Go.  The
first call from any not-yet-closing state succeeds. -/
theorem close_twice_panics (s : Sys) (h : s.h.closing = false) :
    ∃ s2 : Sys, closeClientGo s = .ok s2
      ∧ closeClientGo s2 = .panic "close of closed channel" := by
  refine ⟨⟨{ s.h with closing := true, done := true, pending := [] }, false⟩, ?_, ?_⟩
  · unfold closeClientGo closeChan
    rw [h]
    rfl
  · rfl

/-- C4 witness: double Close on a freshly connected client. -/
theorem close_twice_panics_witness :
    ∃ s2 : Sys, closeClientGo openSys = .ok s2
      ∧ closeClientGo s2 = .panic "close of closed channel" :=
  close_twice_panics openSys rfl

/-! ## C5 — after Close, ExecCmd returns ErrNotConnected at once -/

/-- C5: once `Close` has returned, `done` is closed and the work handler
has exited, so the opening select of any subsequent `ExecCmd` (or `Exec`,
which merely wraps `ExecCmd`) finds only the `<-c.done` case ready and
returns `ErrNotConnected` immediately, without blocking and without
touching any state. -/
theorem exec_after_close_not_connected (s s2 : Sys) (cmd : String)
    (hclose : closeClientGo s = .ok s2) :
    execCmdGo s2 cmd = (s2, .error .errNotConnected) := by
  unfold closeClientGo closeChan at hclose
  by_cases h : s.h.closing
  · rw [if_pos h] at hclose
    exact absurd hclose (by simp)
  · rw [if_neg h] at hclose
    simp only [GoResult.ok.injEq] at hclose
    subst hclose
    rfl

/-- C5 witness: close a fresh client, then execute a command. -/
theorem exec_after_close_not_connected_witness :
    closeClientGo openSys = .ok ⟨⟨[], [], [], 5, true, true⟩, false⟩
    ∧ execCmdGo ⟨⟨[], [], [], 5, true, true⟩, false⟩ "version" =
        (⟨⟨[], [], [], 5, true, true⟩, false⟩, .error .errNotConnected) :=
  ⟨rfl, exec_after_close_not_connected openSys _ "version" rfl⟩

/-! ## C6 — epoch value 0 for a time-tagged field -/

/-- C6: the claim fails on the code.  For a `time.Time`-tagged field the
wire value `0` is `Atoi`-coerced to the integer `0`; `timeHookFunc` only
converts positive epochs and passes the raw `0` through unchanged, and
mapstructure cannot assign an integer to a struct-typed field, so
`DecodeResponse` returns a decode error — the field is not left at its
zero value and the call does not succeed.  A positive epoch does convert
to the corresponding absolute timestamp, and the hook never produces the
epoch origin from `0`. -/
theorem time_zero_value_errors :
    decodeResponseSingle dTimeField ["client_created=0"] =
      .error (.decodeMapErr "expected a map, got int")
    ∧ decodeResponseSingle dTimeField ["client_created=1259147468"] =
        .ok (some 1259147468)
    ∧ timeHookFunc true (.int 0) = .ok (.int 0) :=
  ⟨rfl, rfl, rfl⟩

/-! ## The notify branch of the message handler -/

/-- Reduction of `handlerLine` on a line that is neither trailer kind and
carries the `notify` token at position 0: the handler runs
`decodeNotification` and performs the non-blocking channel send. -/
theorem handlerLine_notify (s : HandlerState) (line : String)
    (h1 : ¬line = "error id=0 msg=ok")
    (h2 : matchErrTrailer line = none)
    (h3 : ("notify".data).isPrefixOf line.data = true) :
    handlerLine s line =
      match decodeNotificationGo line with
      | .ok n =>
        .ok (if s.notifyQ.length < s.notifyCap
             then { s with notifyQ := s.notifyQ ++ [n] } else s)
      | .err _ => .ok s
      | .panic m => .panic m := by
  unfold handlerLine
  rw [if_neg h1, h2, h3]
  simp only [if_true]

/-! ## C8 — the textmessage notification scenario -/

/-- C8: the line `notifytextmessage targetmode=3 msg=lorem\sipsum flag`
decodes to a `Notification` with type `textmessage` and data
`targetmode=3`, `msg=lorem ipsum` (escape decoded), `flag=` (bare token);
when the notification channel has room the handler delivers exactly that
notification, and the handler state equality shows the line is never
appended to the partial-response buffer (`buf` is unchanged; for a full
channel the notify branch also leaves `buf` unchanged, see the C9
theorem). -/
theorem notification_textmessage_delivered (s : HandlerState)
    (hroom : s.notifyQ.length < s.notifyCap) :
    decodeNotificationGo notifLine = .ok textMsgNotif
    ∧ handlerLine s notifLine = .ok { s with notifyQ := s.notifyQ ++ [textMsgNotif] } := by
  refine ⟨rfl, ?_⟩
  rw [handlerLine_notify s notifLine (by decide) rfl (by decide)]
  rw [show decodeNotificationGo notifLine = .ok textMsgNotif from rfl]
  simp only [if_pos hroom]

/-- C8 witness: an idle freshly connected handler state. -/
theorem notification_textmessage_delivered_witness :
    decodeNotificationGo notifLine = .ok textMsgNotif
    ∧ handlerLine openSys.h notifLine =
        .ok { openSys.h with notifyQ := [textMsgNotif] } :=
  notification_textmessage_delivered openSys.h (by decide)

/-! ## C9 — a notification arriving on a full channel is dropped -/

/-- C9: when the notification channel is at capacity and the read loop
decodes a further notification line, the non-blocking send takes the
`default` branch: the handler returns successfully with its state
completely unchanged — the notification is dropped silently, no error is
produced, nothing blocks, and the loop goes on to the next line. -/
theorem notification_dropped_when_full (s : HandlerState) (line : String)
    (n : Notification)
    (h1 : ¬line = "error id=0 msg=ok")
    (h2 : matchErrTrailer line = none)
    (h3 : ("notify".data).isPrefixOf line.data = true)
    (hdec : decodeNotificationGo line = .ok n)
    (hfull : s.notifyCap ≤ s.notifyQ.length) :
    handlerLine s line = .ok s := by
  rw [handlerLine_notify s line h1 h2 h3, hdec]
  simp only [if_neg (by omega : ¬s.notifyQ.length < s.notifyCap)]

/-- C9 witness: a zero-capacity notification channel (always full). -/
theorem notification_dropped_when_full_witness :
    handlerLine ⟨[], [], [], 0, false, false⟩ notifLine =
      .ok ⟨[], [], [], 0, false, false⟩ :=
  notification_dropped_when_full ⟨[], [], [], 0, false, false⟩ notifLine
    textMsgNotif (by decide) rfl (by decide) rfl (by decide)

/-! ## C10 — decodeNotification panics on a line without a space -/

/-- A string with no occurrence of `sep` has no first occurrence. -/
theorem splitFirst_eq_none (sep : Char) (l : List Char)
    (h : l.contains sep = false) : splitFirst sep l = none := by
  induction l with
  | nil => rfl
  | cons c cs ih =>
    simp only [List.contains_cons, Bool.or_eq_false_iff] at h
    have hne : ¬(c = sep) := by
      intro he
      subst he
      simp at h
    unfold splitFirst
    rw [if_neg hne, ih h.2]
    rfl

/-- C10: `decodeNotification` is total only on lines containing a space.
When `SplitN` produces two parts, the result is a `Notification` whose
type is the first token with the `notify` token stripped and whose data
is `DecodeResponse` of the remainder; on a line without any space —
`notifyfoo` — `parts` has length 1 and the unconditional `parts[1]`
access panics with an index-out-of-range runtime error; and the message
handler does invoke `decodeNotification` (and hence panics) on such a
line, since its first characters are `notify`. -/
theorem notification_no_space_panics :
    (∀ l p0 p1 : String, goSplitN2 l ' ' = [p0, p1] →
      decodeNotificationGo l =
        match decodeResponseSingle weakStringMap [p1] with
        | .ok d => .ok ⟨trimNotify p0, d⟩
        | .error e => .err e)
    ∧ (∀ l : String, l.data.contains ' ' = false →
        decodeNotificationGo l =
          .panic "runtime error: index out of range [1] with length 1")
    ∧ (∀ s : HandlerState,
        handlerLine s "notifyfoo" =
          .panic "runtime error: index out of range [1] with length 1") := by
  refine ⟨?_, ?_, ?_⟩
  · intro l p0 p1 hsplit
    unfold decodeNotificationGo
    rw [hsplit]
  · intro l h
    unfold decodeNotificationGo goSplitN2
    rw [splitFirst_eq_none ' ' l.data h]
  · intro s
    rw [handlerLine_notify s "notifyfoo" (by decide) rfl (by decide)]
    rfl

/-- C10 witness: the concrete panicking input `notifyfoo` and, for the
positive part, the textmessage line split at its first space. -/
theorem notification_no_space_panics_witness :
    decodeNotificationGo "notifyfoo" =
      .panic "runtime error: index out of range [1] with length 1"
    ∧ decodeNotificationGo notifLine =
        match decodeResponseSingle weakStringMap
            ["targetmode=3 msg=lorem\\sipsum flag"] with
        | .ok d => .ok ⟨trimNotify "notifytextmessage", d⟩
        | .error e => .err e := by
  constructor
  · exact notification_no_space_panics.2.1 "notifyfoo" (by decide)
  · exact notification_no_space_panics.1 notifLine "notifytextmessage"
      "targetmode=3 msg=lorem\\sipsum flag" (by decide)

/-! ## C7 — a slice target yields one element per record, in order -/

/-- A successful `mapM` in `Except` produces one output per input. -/
theorem mapM_ok_length {α β : Type} (f : α → Except GoError β) :
    ∀ (l : List α) (out : List β), l.mapM f = .ok out → out.length = l.length := by
  intro l
  induction l with
  | nil =>
    intro out h
    rw [List.mapM_nil] at h
    cases h
    rfl
  | cons a l ih =>
    intro out h
    rw [List.mapM_cons] at h
    cases hfa : f a with
    | error e => rw [hfa] at h; cases h
    | ok x =>
      rw [hfa] at h
      cases hml : l.mapM f with
      | error e => rw [hml] at h; cases h
      | ok xs =>
        rw [hml] at h
        cases h
        simp [ih xs hml]

/-- A successful `mapM` in `Except` maps the i-th input to the i-th
output. -/
theorem mapM_ok_get {α β : Type} (f : α → Except GoError β) :
    ∀ (l : List α) (out : List β), l.mapM f = .ok out →
      ∀ (i : Nat) (h1 : i < l.length) (h2 : i < out.length),
        f (l.get ⟨i, h1⟩) = .ok (out.get ⟨i, h2⟩) := by
  intro l
  induction l with
  | nil => intro out h i h1; exact absurd h1 (by simp)
  | cons a l ih =>
    intro out h i h1 h2
    rw [List.mapM_cons] at h
    cases hfa : f a with
    | error e => rw [hfa] at h; cases h
    | ok x =>
      rw [hfa] at h
      cases hml : l.mapM f with
      | error e => rw [hml] at h; cases h
      | ok xs =>
        rw [hml] at h
        cases h
        match i with
        | 0 => exact hfa
        | i + 1 => exact ih xs hml i (by simpa using h1) (by simpa using h2)

/-- The record loop of the slice path: folding `decodeSlice` over the
records equals mapping each record independently through field parsing
and element decode — the input map is reset between records, so each
element derives from its own record only, appended in wire order. -/
theorem sliceFold {α : Type} (d : InputMap → Except GoError α) :
    ∀ (parts : List String) (accL : List α),
      parts.foldlM (sliceStep d) (([] : InputMap), accL)
      = ((parts.mapM (fun p => buildFields [] p >>= d)).map
          (fun xs => (([] : InputMap), accL ++ xs))) := by
  intro parts
  induction parts with
  | nil =>
    intro accL
    rw [List.mapM_nil]
    show Except.ok (([] : InputMap), accL) = Except.ok (([] : InputMap), accL ++ [])
    rw [List.append_nil]
  | cons p ps ih =>
    intro accL
    rw [List.foldlM_cons, List.mapM_cons]
    have hstep : sliceStep d (([] : InputMap), accL) p =
        match buildFields [] p >>= d with
        | .error e => .error e
        | .ok x => .ok (([] : InputMap), accL ++ [x]) := by
      simp only [sliceStep]
      cases hb : buildFields [] p with
      | error e => rfl
      | ok m => rfl
    rw [hstep]
    cases hg : buildFields [] p >>= d with
    | error e => rfl
    | ok x =>
      show ps.foldlM (sliceStep d) (([] : InputMap), accL ++ [x]) = _
      rw [ih (accL ++ [x])]
      cases hml : ps.mapM (fun p => buildFields [] p >>= d) with
      | error e => rfl
      | ok xs =>
        show Except.ok (([] : InputMap), (accL ++ [x]) ++ xs)
          = Except.ok (([] : InputMap), accL ++ x :: xs)
        rw [List.append_assoc]
        rfl

/-- C7: whenever `DecodeResponse` with a slice target succeeds on a
one-line response of N pipe-separated records, the resulting slice holds
exactly N elements, and the i-th element is exactly the decode of the
i-th record (wire order preserved, each record parsed into its own fresh
input map). -/
theorem slice_target_n_records {α : Type} (d : InputMap → Except GoError α)
    (l : String) (out : List α)
    (hok : decodeResponseSliceGo d [] [l] = .ok out) :
    (goSplit l '|').mapM (fun p => buildFields [] p >>= d) = .ok out
    ∧ out.length = (goSplit l '|').length
    ∧ ∀ (i : Nat) (h1 : i < (goSplit l '|').length) (h2 : i < out.length),
        buildFields [] ((goSplit l '|').get ⟨i, h1⟩) >>= d = .ok (out.get ⟨i, h2⟩) := by
  unfold decodeResponseSliceGo at hok
  norm_num at hok
  rw [sliceFold d (goSplit l '|') []] at hok
  cases hml : (goSplit l '|').mapM (fun p => buildFields [] p >>= d) with
  | error e => rw [hml] at hok; cases hok
  | ok xs =>
    rw [hml] at hok
    simp only [Except.map, List.nil_append] at hok
    cases hok
    exact ⟨rfl, mapM_ok_length _ _ _ hml, mapM_ok_get _ _ _ hml⟩

/-- C7 witness: two records with the identity element decode. -/
theorem slice_target_n_records_witness :
    decodeResponseSliceGo Except.ok [] ["a=1|b=2"] =
      .ok [[("a", GoValue.int 1)], [("b", GoValue.int 2)]]
    ∧ ([[("a", GoValue.int 1)], [("b", GoValue.int 2)]] : List InputMap).length =
        (goSplit "a=1|b=2" '|').length := by
  refine ⟨rfl, ?_⟩
  have h := slice_target_n_records Except.ok "a=1|b=2"
    [[("a", GoValue.int 1)], [("b", GoValue.int 2)]] rfl
  exact h.2.1

/-! ## C3 — the codec round-trips and is the identity off the special set -/

/-- `replFuel` ignores the fuel on the empty input. -/
theorem replFuel_nil (pairs : List (List Char × List Char)) :
    ∀ f : Nat, replFuel pairs f [] = [] := by
  intro f
  cases f <;> rfl

/-- Any fuel at least the input length computes the same replacement:
every step of the replacer consumes at least one input character. -/
theorem fuel_irrel (pairs : List (List Char × List Char)) :
    ∀ (f g : Nat) (s : List Char), s.length ≤ f → s.length ≤ g →
      replFuel pairs f s = replFuel pairs g s := by
  intro f
  induction f with
  | zero =>
    intro g s hf _
    have hs : s = [] := List.length_eq_zero.mp (Nat.le_zero.mp hf)
    subst hs
    rw [replFuel_nil, replFuel_nil]
  | succ f ih =>
    intro g s hf hg
    cases s with
    | nil => rw [replFuel_nil, replFuel_nil]
    | cons c cs =>
      cases g with
      | zero => simp at hg
      | succ g1 =>
        simp only [replFuel]
        cases hm : findRepl pairs (c :: cs) with
        | none =>
          show c :: replFuel pairs f cs = c :: replFuel pairs g1 cs
          rw [ih g1 cs (by simp at hf; omega) (by simp at hg; omega)]
        | some pr =>
          show pr.2 ++ replFuel pairs f (List.drop (pr.1.length - 1) cs)
            = pr.2 ++ replFuel pairs g1 (List.drop (pr.1.length - 1) cs)
          rw [ih g1 (List.drop (pr.1.length - 1) cs)
            (by simp only [List.length_drop]; simp at hf; omega)
            (by simp only [List.length_drop]; simp at hg; omega)]

/-- A cons-step of `List.find?` when the head fails the test. -/
theorem find?_step_false {α : Type} {p : α → Bool} {a : α} {l : List α}
    (h : p a = false) : (a :: l).find? p = l.find? p := by
  simp [List.find?, h]

/-- What the encoder table finds at the head of the input: exactly the
escape rule of the head character. -/
theorem findRepl_enc (c : Char) (cs : List Char) :
    findRepl encPairs (c :: cs) = (encTable c).map (fun e => ([c], ['\\', e])) := by
  by_cases h1 : c = '\\'
  · subst h1; simp [findRepl, encPairs, List.find?, List.isPrefixOf_cons₂, encTable]
  · by_cases h2 : c = '/'
    · subst h2; simp [findRepl, encPairs, List.find?, List.isPrefixOf_cons₂, encTable]
    · by_cases h3 : c = ' '
      · subst h3; simp [findRepl, encPairs, List.find?, List.isPrefixOf_cons₂, encTable]
      · by_cases h4 : c = '|'
        · subst h4; simp [findRepl, encPairs, List.find?, List.isPrefixOf_cons₂, encTable]
        · by_cases h5 : c = '\x07'
          · subst h5; simp [findRepl, encPairs, List.find?, List.isPrefixOf_cons₂, encTable]
          · by_cases h6 : c = '\x08'
            · subst h6; simp [findRepl, encPairs, List.find?, List.isPrefixOf_cons₂, encTable]
            · by_cases h7 : c = '\x0c'
              · subst h7; simp [findRepl, encPairs, List.find?, List.isPrefixOf_cons₂, encTable]
              · by_cases h8 : c = '\n'
                · subst h8; simp [findRepl, encPairs, List.find?, List.isPrefixOf_cons₂, encTable]
                · by_cases h9 : c = '\r'
                  · subst h9; simp [findRepl, encPairs, List.find?, List.isPrefixOf_cons₂, encTable]
                  · by_cases h10 : c = '\t'
                    · subst h10; simp [findRepl, encPairs, List.find?, List.isPrefixOf_cons₂, encTable]
                    · by_cases h11 : c = '\x0b'
                      · subst h11; simp [findRepl, encPairs, List.find?, List.isPrefixOf_cons₂, encTable]
                      · rw [show encTable c = none by
                          unfold encTable
                          rw [if_neg h1, if_neg h2, if_neg h3, if_neg h4,
                            if_neg h5, if_neg h6, if_neg h7, if_neg h8,
                            if_neg h9, if_neg h10, if_neg h11]]
                        unfold findRepl encPairs
                        rw [find?_step_false (by simp [List.isPrefixOf_cons₂, beq_eq_false_iff_ne]; exact Ne.symm h1),
                          find?_step_false (by simp [List.isPrefixOf_cons₂, beq_eq_false_iff_ne]; exact Ne.symm h2),
                          find?_step_false (by simp [List.isPrefixOf_cons₂, beq_eq_false_iff_ne]; exact Ne.symm h3),
                          find?_step_false (by simp [List.isPrefixOf_cons₂, beq_eq_false_iff_ne]; exact Ne.symm h4),
                          find?_step_false (by simp [List.isPrefixOf_cons₂, beq_eq_false_iff_ne]; exact Ne.symm h5),
                          find?_step_false (by simp [List.isPrefixOf_cons₂, beq_eq_false_iff_ne]; exact Ne.symm h6),
                          find?_step_false (by simp [List.isPrefixOf_cons₂, beq_eq_false_iff_ne]; exact Ne.symm h7),
                          find?_step_false (by simp [List.isPrefixOf_cons₂, beq_eq_false_iff_ne]; exact Ne.symm h8),
                          find?_step_false (by simp [List.isPrefixOf_cons₂, beq_eq_false_iff_ne]; exact Ne.symm h9),
                          find?_step_false (by simp [List.isPrefixOf_cons₂, beq_eq_false_iff_ne]; exact Ne.symm h10),
                          find?_step_false (by simp [List.isPrefixOf_cons₂, beq_eq_false_iff_ne]; exact Ne.symm h11)]
                        rfl

/-- What the decoder table finds at a backslash followed by `e`: exactly
the rule for the escape letter `e`. -/
theorem findRepl_dec (e : Char) (cs : List Char) :
    findRepl decPairs ('\\' :: e :: cs) =
      (decTable e).map (fun o => (['\\', e], [o])) := by
  by_cases h1 : e = '\\'
  · subst h1; simp [findRepl, decPairs, List.find?, List.isPrefixOf_cons₂, decTable]
  · by_cases h2 : e = '/'
    · subst h2; simp [findRepl, decPairs, List.find?, List.isPrefixOf_cons₂, decTable]
    · by_cases h3 : e = 's'
      · subst h3; simp [findRepl, decPairs, List.find?, List.isPrefixOf_cons₂, decTable]
      · by_cases h4 : e = 'p'
        · subst h4; simp [findRepl, decPairs, List.find?, List.isPrefixOf_cons₂, decTable]
        · by_cases h5 : e = 'a'
          · subst h5; simp [findRepl, decPairs, List.find?, List.isPrefixOf_cons₂, decTable]
          · by_cases h6 : e = 'b'
            · subst h6; simp [findRepl, decPairs, List.find?, List.isPrefixOf_cons₂, decTable]
            · by_cases h7 : e = 'f'
              · subst h7; simp [findRepl, decPairs, List.find?, List.isPrefixOf_cons₂, decTable]
              · by_cases h8 : e = 'n'
                · subst h8; simp [findRepl, decPairs, List.find?, List.isPrefixOf_cons₂, decTable]
                · by_cases h9 : e = 'r'
                  · subst h9; simp [findRepl, decPairs, List.find?, List.isPrefixOf_cons₂, decTable]
                  · by_cases h10 : e = 't'
                    · subst h10; simp [findRepl, decPairs, List.find?, List.isPrefixOf_cons₂, decTable]
                    · by_cases h11 : e = 'v'
                      · subst h11; simp [findRepl, decPairs, List.find?, List.isPrefixOf_cons₂, decTable]
                      · rw [show decTable e = none by
                          unfold decTable
                          rw [if_neg h1, if_neg h2, if_neg h3, if_neg h4,
                            if_neg h5, if_neg h6, if_neg h7, if_neg h8,
                            if_neg h9, if_neg h10, if_neg h11]]
                        unfold findRepl decPairs
                        rw [find?_step_false (by simp [List.isPrefixOf_cons₂, beq_eq_false_iff_ne]; exact Ne.symm h1),
                          find?_step_false (by simp [List.isPrefixOf_cons₂, beq_eq_false_iff_ne]; exact Ne.symm h2),
                          find?_step_false (by simp [List.isPrefixOf_cons₂, beq_eq_false_iff_ne]; exact Ne.symm h3),
                          find?_step_false (by simp [List.isPrefixOf_cons₂, beq_eq_false_iff_ne]; exact Ne.symm h4),
                          find?_step_false (by simp [List.isPrefixOf_cons₂, beq_eq_false_iff_ne]; exact Ne.symm h5),
                          find?_step_false (by simp [List.isPrefixOf_cons₂, beq_eq_false_iff_ne]; exact Ne.symm h6),
                          find?_step_false (by simp [List.isPrefixOf_cons₂, beq_eq_false_iff_ne]; exact Ne.symm h7),
                          find?_step_false (by simp [List.isPrefixOf_cons₂, beq_eq_false_iff_ne]; exact Ne.symm h8),
                          find?_step_false (by simp [List.isPrefixOf_cons₂, beq_eq_false_iff_ne]; exact Ne.symm h9),
                          find?_step_false (by simp [List.isPrefixOf_cons₂, beq_eq_false_iff_ne]; exact Ne.symm h10),
                          find?_step_false (by simp [List.isPrefixOf_cons₂, beq_eq_false_iff_ne]; exact Ne.symm h11)]
                        rfl

/-- The decoder finds nothing at a non-backslash head: every decoder
pattern begins with a backslash. -/
theorem findRepl_dec_nb (c : Char) (cs : List Char) (h : ¬c = '\\') :
    findRepl decPairs (c :: cs) = none := by
  unfold findRepl decPairs
  have hp : ∀ y : Char, (['\\', y].isPrefixOf (c :: cs)) = false := by
    intro y
    rw [List.isPrefixOf_cons₂, beq_eq_false_iff_ne.mpr (fun he => h he.symm)]
    rfl
  rw [find?_step_false (by exact hp '\\'), find?_step_false (by exact hp '/'),
    find?_step_false (by exact hp 's'), find?_step_false (by exact hp 'p'),
    find?_step_false (by exact hp 'a'), find?_step_false (by exact hp 'b'),
    find?_step_false (by exact hp 'f'), find?_step_false (by exact hp 'n'),
    find?_step_false (by exact hp 'r'), find?_step_false (by exact hp 't'),
    find?_step_false (by exact hp 'v')]
  rfl

/-- One step of the encoder. -/
theorem enc_cons (c : Char) (cs : List Char) :
    goRepl encPairs (c :: cs) = encChar c ++ goRepl encPairs cs := by
  unfold goRepl encChar
  show replFuel encPairs (cs.length + 1) (c :: cs) = _
  simp only [replFuel]
  rw [findRepl_enc]
  cases he : encTable c with
  | none => rfl
  | some e => rfl

/-- One step of the decoder on an escape sequence. -/
theorem dec_esc (e o : Char) (cs : List Char) (h : decTable e = some o) :
    goRepl decPairs ('\\' :: e :: cs) = o :: goRepl decPairs cs := by
  unfold goRepl
  show replFuel decPairs (cs.length + 1 + 1) ('\\' :: e :: cs) = _
  simp only [replFuel]
  rw [findRepl_dec, h]
  show o :: replFuel decPairs (cs.length + 1) cs = o :: replFuel decPairs cs.length cs
  rw [fuel_irrel decPairs (cs.length + 1) cs.length cs (by omega) (by omega)]

/-- One step of the decoder on a non-backslash character. -/
theorem dec_cons_nomatch (c : Char) (cs : List Char) (h : ¬c = '\\') :
    goRepl decPairs (c :: cs) = c :: goRepl decPairs cs := by
  unfold goRepl
  show replFuel decPairs (cs.length + 1) (c :: cs) = _
  simp only [replFuel]
  rw [findRepl_dec_nb c cs h]

/-- The two replacement tables are mutually inverse rules. -/
theorem encTable_decTable (c e : Char) (h : encTable c = some e) :
    decTable e = some c := by
  unfold encTable at h
  by_cases h1 : c = '\\'
  · rw [if_pos h1] at h; cases h; subst h1; decide
  rw [if_neg h1] at h
  by_cases h2 : c = '/'
  · rw [if_pos h2] at h; cases h; subst h2; decide
  rw [if_neg h2] at h
  by_cases h3 : c = ' '
  · rw [if_pos h3] at h; cases h; subst h3; decide
  rw [if_neg h3] at h
  by_cases h4 : c = '|'
  · rw [if_pos h4] at h; cases h; subst h4; decide
  rw [if_neg h4] at h
  by_cases h5 : c = '\x07'
  · rw [if_pos h5] at h; cases h; subst h5; decide
  rw [if_neg h5] at h
  by_cases h6 : c = '\x08'
  · rw [if_pos h6] at h; cases h; subst h6; decide
  rw [if_neg h6] at h
  by_cases h7 : c = '\x0c'
  · rw [if_pos h7] at h; cases h; subst h7; decide
  rw [if_neg h7] at h
  by_cases h8 : c = '\n'
  · rw [if_pos h8] at h; cases h; subst h8; decide
  rw [if_neg h8] at h
  by_cases h9 : c = '\r'
  · rw [if_pos h9] at h; cases h; subst h9; decide
  rw [if_neg h9] at h
  by_cases h10 : c = '\t'
  · rw [if_pos h10] at h; cases h; subst h10; decide
  rw [if_neg h10] at h
  by_cases h11 : c = '\x0b'
  · rw [if_pos h11] at h; cases h; subst h11; decide
  rw [if_neg h11] at h
  cases h

/-- An unescapable character is in particular not the backslash. -/
theorem encTable_none_not_backslash (c : Char) (h : encTable c = none) :
    ¬c = '\\' := by
  intro he
  subst he
  exact absurd h (by decide)

/-- A character outside the escapable set has no escape rule. -/
theorem encTable_none_of_not_special (c : Char) (h : specialChar c = false) :
    encTable c = none := by
  simp only [specialChar, List.mem_cons, List.not_mem_nil, or_false,
    decide_eq_false_iff_not, not_or] at h
  obtain ⟨h1, h2, h3, h4, h5, h6, h7, h8, h9, h10, h11⟩ := h
  unfold encTable
  rw [if_neg h1, if_neg h2, if_neg h3, if_neg h4, if_neg h5, if_neg h6,
    if_neg h7, if_neg h8, if_neg h9, if_neg h10, if_neg h11]

/-- Round trip at the char-list level: decoding an encoding is the
identity. -/
theorem rt_list : ∀ s : List Char, goRepl decPairs (goRepl encPairs s) = s := by
  intro s
  induction s with
  | nil => rfl
  | cons c cs ih =>
    rw [enc_cons]
    unfold encChar
    cases he : encTable c with
    | none =>
      show goRepl decPairs (c :: goRepl encPairs cs) = c :: cs
      rw [dec_cons_nomatch c _ (encTable_none_not_backslash c he), ih]
    | some e =>
      show goRepl decPairs ('\\' :: e :: goRepl encPairs cs) = c :: cs
      rw [dec_esc e c _ (encTable_decTable c e he), ih]

/-- The encoder is the identity on inputs without special characters. -/
theorem enc_id_list : ∀ s : List Char,
    (∀ c ∈ s, specialChar c = false) → goRepl encPairs s = s := by
  intro s
  induction s with
  | nil => intro _; rfl
  | cons c cs ih =>
    intro h
    rw [enc_cons]
    unfold encChar
    rw [encTable_none_of_not_special c (h c (by simp))]
    show c :: goRepl encPairs cs = c :: cs
    rw [ih (fun x hx => h x (by simp [hx]))]

/-- The decoder is the identity on inputs without special characters
(in particular, without backslashes). -/
theorem dec_id_list : ∀ s : List Char,
    (∀ c ∈ s, specialChar c = false) → goRepl decPairs s = s := by
  intro s
  induction s with
  | nil => intro _; rfl
  | cons c cs ih =>
    intro h
    have hc : ¬c = '\\' :=
      encTable_none_not_backslash c
        (encTable_none_of_not_special c (h c (by simp)))
    rw [dec_cons_nomatch c cs hc, ih (fun x hx => h x (by simp [hx]))]

/-- C3: the codec functions are total Lean functions by construction;
decoding inverts encoding on every string (every character is either
escapable or ordinary and passes through); and on strings containing no
special character both `encoder.Replace` and `Decode` are the
identity. -/
theorem encode_decode_roundtrip_and_identity :
    (∀ s : String, decodeStr (encodeStr s) = s)
    ∧ ∀ s : String, (∀ c ∈ s.data, specialChar c = false) →
        encodeStr s = s ∧ decodeStr s = s := by
  constructor
  · intro s
    unfold encodeStr decodeStr
    show (⟨goRepl decPairs (goRepl encPairs s.data)⟩ : String) = s
    rw [rt_list]
  · intro s h
    constructor
    · unfold encodeStr
      rw [enc_id_list s.data h]
    · unfold decodeStr
      rw [dec_id_list s.data h]

/-- C3 witness: a round trip over a string using every escapable
character, and identity on a plain command word. -/
theorem encode_decode_roundtrip_and_identity_witness :
    decodeStr (encodeStr "lorem ipsum|a\\b/c\t\n") = "lorem ipsum|a\\b/c\t\n"
    ∧ encodeStr "version" = "version"
    ∧ decodeStr "version" = "version" := by
  refine ⟨encode_decode_roundtrip_and_identity.1 _, ?_, ?_⟩
  · exact (encode_decode_roundtrip_and_identity.2 "version" (by decide)).1
  · exact (encode_decode_roundtrip_and_identity.2 "version" (by decide)).2

end TS3
